import Mathlib

/-!
Membership reconciliation of slimbloom.

A shallow embedding of the three membership handlers of the repository

* `src/api/whop-webhook.js`        (Ingest),
* `src/api/subscription.js`        (Reader),
* `src/api/cancel-subscription.js` (Canceller),

over an explicit `memberships` table. A handler is a pure function from the
request, the outcomes of the collaborator calls it awaits, and the table, to
the HTTP response, the table afterwards and the number of write requests it
sent to the table.
-/

namespace Slimbloom

/-! ## JavaScript values -/

/-- The built-in `String.prototype.toLowerCase` on a string of ASCII characters:
`A` to `Z` become `a` to `z` and every other ASCII character is kept. The
handlers below take the built-in as the parameter `toLowerCase`, since its
mapping beyond ASCII is that of the runtime's Unicode tables; the examples are
ASCII strings and run the handlers with this function. -/
def toLowerCaseAscii (s : String) : String := ⟨s.data.map Char.toLower⟩

/-- The string operand of `x || fallback`: `undefined`, `null` and `''` are falsy. -/
def truthy (x : Option String) : Option String :=
  match x with
  | some s => if s = "" then none else some s
  | none => none

/-! ## The `memberships` table -/

/-- One row of the `memberships` table, with the column names the handlers use. -/
structure Membership where
  id : Nat
  whop_membership_id : String
  whop_plan_id : String
  whop_user_email : String
  whop_user_id : Option String
  user_id : Option String
  status : String
  plan_name : Option String
  plan_price_cents : Option Nat
  plan_interval : Option String
  renewal_period_start : Option String
  renewal_period_end : Option String
  cancel_at_period_end : Bool
  canceled_at : Option String
  created_at : Nat
deriving DecidableEq

/-- The table: its rows, in storage order. -/
abbrev Store := List Membership

/-- The object literal that the webhook handler passes to `.upsert(...)`. A plan
attribute that is `undefined` (`none`) is dropped when the request body is
serialised, so the column is absent from the request. -/
structure UpsertValues where
  whop_membership_id : String
  whop_plan_id : String
  whop_user_email : String
  whop_user_id : Option String
  user_id : Option String
  status : String
  plan_name : Option String
  plan_price_cents : Option Nat
  plan_interval : Option String
  renewal_period_start : Option String
  renewal_period_end : Option String
  cancel_at_period_end : Bool
  canceled_at : Option String
deriving DecidableEq

/-- Modelled from the spec: the storage-assigned primary key of a new row (the
table definition is not part of the sources); any key not yet in the table. -/
def freshId (db : Store) : Nat := (db.map (·.id)).foldr max 0 + 1

/-- Modelled from the spec: the row created by an upsert that meets no conflict
(`upsertByProviderMembershipId`, insert branch). Columns present in the request
take its values, absent columns are null, `id` is storage-assigned and
`created_at` is set once, here. -/
def insertRow (v : UpsertValues) (newId now : Nat) : Membership :=
  { id := newId
    whop_membership_id := v.whop_membership_id
    whop_plan_id := v.whop_plan_id
    whop_user_email := v.whop_user_email
    whop_user_id := v.whop_user_id
    user_id := v.user_id
    status := v.status
    plan_name := v.plan_name
    plan_price_cents := v.plan_price_cents
    plan_interval := v.plan_interval
    renewal_period_start := v.renewal_period_start
    renewal_period_end := v.renewal_period_end
    cancel_at_period_end := v.cancel_at_period_end
    canceled_at := v.canceled_at
    created_at := now }

/-- Modelled from the spec: the merge branch of `upsertByProviderMembershipId`.
Every column present in the request overwrites the row; `id`, `created_at` and
the columns absent from the request keep their value. -/
def mergeRow (r : Membership) (v : UpsertValues) : Membership :=
  { r with
    whop_plan_id := v.whop_plan_id
    whop_user_email := v.whop_user_email
    whop_user_id := v.whop_user_id
    user_id := v.user_id
    status := v.status
    plan_name := (v.plan_name).orElse (fun _ => r.plan_name)
    plan_price_cents := (v.plan_price_cents).orElse (fun _ => r.plan_price_cents)
    plan_interval := (v.plan_interval).orElse (fun _ => r.plan_interval)
    renewal_period_start := v.renewal_period_start
    renewal_period_end := v.renewal_period_end
    cancel_at_period_end := v.cancel_at_period_end
    canceled_at := v.canceled_at }

/-- Modelled from the spec: `upsertByProviderMembershipId`, the store side of
`.upsert(values, { onConflict: 'whop_membership_id' })`: insert-or-merge keyed on
`whop_membership_id`, without a prior read. -/
def upsert (db : Store) (v : UpsertValues) (now : Nat) : Store :=
  if db.any (fun r => r.whop_membership_id = v.whop_membership_id) then
    db.map (fun r => if r.whop_membership_id = v.whop_membership_id then mergeRow r v else r)
  else
    db ++ [insertRow v (freshId db) now]

/-- Modelled from the spec: `.order('created_at', { ascending: false }).limit(1)`
over the selected rows: the most recently created one (the first in storage
order among equally recent ones), if any. -/
def latest (rows : List Membership) : Option Membership :=
  rows.argmax (fun r => r.created_at)

/-- Modelled from the spec: `findLatestByUser`, the query
`.eq('user_id', id).order('created_at', desc).limit(1)`. -/
def findLatestByUser (db : Store) (userId : String) : Option Membership :=
  latest (db.filter (fun r => r.user_id = some userId))

/-- Modelled from the spec: `findLatestUnlinkedByEmail`, the query
`.eq('whop_user_email', email).is('user_id', null).order('created_at', desc).limit(1)`.
The email column is a string column, so `.eq` is exact string equality. -/
def findLatestUnlinkedByEmail (db : Store) (email : String) : Option Membership :=
  latest (db.filter (fun r => r.whop_user_email = email ∧ r.user_id = none))

/-- The Canceller's query
`.eq('user_id', id).in('status', ['active', 'trialing']).order('created_at', desc).limit(1)`. -/
def findLatestCancellable (db : Store) (userId : String) : Option Membership :=
  latest (db.filter (fun r =>
    r.user_id = some userId ∧ (r.status = "active" ∨ r.status = "trialing")))

/-- Modelled from the spec: `linkUser`, the point update
`.update({ user_id }).eq('id', rowId)`. -/
def linkUser (db : Store) (rowId : Nat) (userId : String) : Store :=
  db.map (fun r => if r.id = rowId then { r with user_id := some userId } else r)

/-- Modelled from the spec: `setCancellation`, the point update
`.update({ cancel_at_period_end: true, status: 'canceling' }).eq('id', rowId)`. -/
def setCancellation (db : Store) (rowId : Nat) : Store :=
  db.map (fun r =>
    if r.id = rowId then { r with cancel_at_period_end := true, status := "canceling" } else r)

/-! ## HTTP responses -/

/-- The JSON body of a response. -/
inductive Body where
  | empty
  | error (message : String)
  | success
  | subscription (m : Option Membership)
  | cancelled (message : String) (renewal_period_end : Option String)
deriving DecidableEq

/-- What `res.status(code).json(body)` sends. -/
structure Response where
  status : Nat
  body : Body
deriving DecidableEq

/-- The result of running a handler: the response, the table afterwards, and
the number of write requests (upsert, update) sent to the table. -/
structure Outcome where
  response : Response
  db : Store
  writes : Nat
deriving DecidableEq

/-! ## Ingest: `src/api/whop-webhook.js` -/

/-- The three display attributes read off the value of `PLAN_MAP[whopPlanId] || ...`;
`none` is `undefined`. -/
structure PlanDetails where
  name : Option String
  price_cents : Option Nat
  interval : Option String
deriving DecidableEq

/-- The own properties of the object literal `PLAN_MAP`. -/
def PLAN_MAP : List (String × PlanDetails) :=
  [ ("plan_VWsf3Cik0o7Vj", ⟨some "4-Week Plan", some 1999, some "month"⟩),
    ("plan_CGt8PI0ipZ9vR", ⟨some "12-Week Plan", some 3999, some "3-months"⟩),
    ("plan_KJiJ7FZ8lj9OR", ⟨some "24-Week Plan", some 5999, some "6-months"⟩) ]

/-- The properties that the object literal `PLAN_MAP` inherits from
`Object.prototype`, each as the `name`, `price_cents` and `interval` read off
its value: a function has its own name as `name` and neither of the other two,
and `__proto__` is `Object.prototype` itself, which has none of the three. -/
def objectPrototype : List (String × PlanDetails) :=
  [ ("constructor", ⟨some "Object", none, none⟩),
    ("__defineGetter__", ⟨some "__defineGetter__", none, none⟩),
    ("__defineSetter__", ⟨some "__defineSetter__", none, none⟩),
    ("hasOwnProperty", ⟨some "hasOwnProperty", none, none⟩),
    ("__lookupGetter__", ⟨some "__lookupGetter__", none, none⟩),
    ("__lookupSetter__", ⟨some "__lookupSetter__", none, none⟩),
    ("isPrototypeOf", ⟨some "isPrototypeOf", none, none⟩),
    ("propertyIsEnumerable", ⟨some "propertyIsEnumerable", none, none⟩),
    ("toString", ⟨some "toString", none, none⟩),
    ("valueOf", ⟨some "valueOf", none, none⟩),
    ("__proto__", ⟨none, none, none⟩),
    ("toLocaleString", ⟨some "toLocaleString", none, none⟩) ]

/-- The property access `PLAN_MAP[key]`: an own property, else an inherited
one, else `undefined`. Every value found is an object or a function, so truthy. -/
def planMapGet (key : String) : Option PlanDetails :=
  (PLAN_MAP.lookup key).orElse (fun _ => objectPrototype.lookup key)

/-- The fallback operand of `PLAN_MAP[whopPlanId] || { ... }`. -/
def unknownPlan : PlanDetails := ⟨some "Unknown Plan", some 0, some "unknown"⟩

/-- The `user` object of a membership payload. -/
structure WhopUser where
  id : Option String := none
  email : Option String := none
deriving DecidableEq

/-- The `plan` object of a membership payload. -/
structure WhopPlan where
  id : Option String := none
deriving DecidableEq

/-- The object `payload.data`, with the properties the handler reads; `none` is
an absent (or null) property. -/
structure WhopMembership where
  id : Option String := none
  user : Option WhopUser := none
  email : Option String := none
  plan : Option WhopPlan := none
  plan_id : Option String := none
  status : Option String := none
  cancel_at_period_end : Option Bool := none
  renewal_period_start : Option String := none
  renewal_period_end : Option String := none
  canceled_at : Option String := none
deriving DecidableEq

/-- The verified webhook payload. -/
structure Payload where
  type : Option String := none
  data : Option WhopMembership := none
deriving DecidableEq

/-- An identity of the directory, as `listUsers` and `getUser` return it. -/
structure User where
  id : String
  email : Option String
deriving DecidableEq

/-- What `await supabase.auth.admin.listUsers()` does: it throws, or it resolves
to an object whose `data` may be missing its `users`. -/
inductive ListUsersResult where
  | threw
  | data (users : Option (List User))
deriving DecidableEq

/-- The webhook request as the handler sees it: the method, whether the raw body
could be read, and the payload that signature verification returns (`none` when
`wh.verify` throws). -/
structure WebhookRequest where
  method : String
  bodyReadable : Bool
  verified : Option Payload
deriving DecidableEq

/-- The outcomes of the calls the webhook handler awaits. -/
structure WebhookEnv where
  listUsers : ListUsersResult
  upsertError : Bool
  now : Nat
deriving DecidableEq

namespace WhopWebhook

/-- Step 3: `membership.user?.email || membership.email || ''`. -/
def whopEmail (membership : WhopMembership) : String :=
  (((truthy (membership.user.bind (·.email))).orElse
    (fun _ => truthy membership.email))).getD ""

/-- Step 3: `membership.plan?.id || membership.plan_id || ''`. -/
def whopPlanId (membership : WhopMembership) : String :=
  (((truthy (membership.plan.bind (·.id))).orElse
    (fun _ => truthy membership.plan_id))).getD ""

/-- Step 5: the id of the first listed user whose email equals the event's
email after both are lower-cased; `null` when the event has no email, when
`listUsers` throws, and when no user matches. -/
def userId (toLowerCase : String → String) (listUsers : ListUsersResult) (email : String) :
    Option String :=
  if email = "" then none else
  match listUsers with
  | .threw => none
  | .data none => none
  | .data (some users) =>
    (users.find? (fun u => u.email.map toLowerCase = some (toLowerCase email))).map (·.id)

/-- Step 6: `PLAN_MAP[whopPlanId] || { name: 'Unknown Plan', ... }`. -/
def planDetails (planId : String) : PlanDetails :=
  (planMapGet planId).getD unknownPlan

/-- Step 7: `membership.status || 'active'`, overridden to `'canceling'` when
`cancel_at_period_end` is truthy and that status is `'active'`. -/
def status (membership : WhopMembership) : String :=
  let status := (truthy membership.status).getD "active"
  if membership.cancel_at_period_end = some true ∧ status = "active" then "canceling" else status

/-- Step 8: the object literal passed to `.upsert`. -/
def upsertValues (toLowerCase : String → String) (membership : WhopMembership)
    (membershipId : String) (listUsers : ListUsersResult) : UpsertValues :=
  let planDetails := planDetails (whopPlanId membership)
  { whop_membership_id := membershipId
    whop_plan_id := whopPlanId membership
    whop_user_email := whopEmail membership
    whop_user_id := truthy (membership.user.bind (·.id))
    user_id := userId toLowerCase listUsers (whopEmail membership)
    status := status membership
    plan_name := planDetails.name
    plan_price_cents := planDetails.price_cents
    plan_interval := planDetails.interval
    renewal_period_start := truthy membership.renewal_period_start
    renewal_period_end := truthy membership.renewal_period_end
    cancel_at_period_end := membership.cancel_at_period_end = some true
    canceled_at := truthy membership.canceled_at }

/-- The exported `handler` of `whop-webhook.js`. -/
def handler (toLowerCase : String → String) (req : WebhookRequest) (env : WebhookEnv)
    (db : Store) : Outcome :=
  if req.method ≠ "POST" then ⟨⟨405, .error "Method not allowed"⟩, db, 0⟩
  else if req.bodyReadable = false then ⟨⟨400, .error "Failed to read request body"⟩, db, 0⟩
  else
    match req.verified with
    | none => ⟨⟨400, .error "Invalid webhook signature"⟩, db, 0⟩
    | some payload =>
      let membership := payload.data.getD {}
      match truthy membership.id with
      | none => ⟨⟨400, .error "Missing membership ID"⟩, db, 0⟩
      | some whopMembershipId =>
        let values := upsertValues toLowerCase membership whopMembershipId env.listUsers
        if env.upsertError then ⟨⟨500, .error "Database error"⟩, db, 1⟩
        else ⟨⟨200, .success⟩, upsert db values env.now, 1⟩

end WhopWebhook

/-! ## Bearer authentication, shared by Reader and Canceller -/

/-- An authenticated-endpoint request: the method and the `Authorization` header. -/
structure AuthRequest where
  method : String
  authorization : Option String
deriving DecidableEq

/-- Step 1 of both handlers: the header must be present, non-empty and start
with `'Bearer '`; the token is the header with that first `'Bearer '` removed. -/
def bearerToken (authHeader : Option String) : Option String :=
  match truthy authHeader with
  | none => none
  | some h =>
    if "Bearer ".data.isPrefixOf h.data then some ⟨h.data.drop 7⟩ else none

/-! ## Reader: `src/api/subscription.js` -/

/-- The outcomes of the calls the Reader awaits: `getUser(token)` (`none` when it
reports an error or no user), and whether each table request reports an error. -/
structure ReaderEnv where
  getUser : String → Option User
  dbError : Bool
  emailLookupError : Bool
  linkError : Bool

namespace Subscription

/-- The exported `handler` of `subscription.js`. -/
def handler (toLowerCase : String → String) (req : AuthRequest) (env : ReaderEnv)
    (db : Store) : Outcome :=
  if req.method = "OPTIONS" then ⟨⟨200, .empty⟩, db, 0⟩
  else if req.method ≠ "GET" then ⟨⟨405, .error "Method not allowed"⟩, db, 0⟩
  else
    match bearerToken req.authorization with
    | none => ⟨⟨401, .error "Missing authorization token"⟩, db, 0⟩
    | some token =>
      match env.getUser token with
      | none => ⟨⟨401, .error "Invalid or expired token"⟩, db, 0⟩
      | some user =>
        if env.dbError then ⟨⟨500, .error "Database error"⟩, db, 0⟩
        else
          match findLatestByUser db user.id with
          | some m => ⟨⟨200, .subscription (some m)⟩, db, 0⟩
          | none =>
            match truthy user.email with
            | none => ⟨⟨200, .subscription none⟩, db, 0⟩
            | some email =>
              if env.emailLookupError then ⟨⟨200, .subscription none⟩, db, 0⟩
              else
                match findLatestUnlinkedByEmail db (toLowerCase email) with
                | none => ⟨⟨200, .subscription none⟩, db, 0⟩
                | some m =>
                  ⟨⟨200, .subscription (some { m with user_id := some user.id })⟩,
                    if env.linkError then db else linkUser db m.id user.id, 1⟩

end Subscription

/-! ## Canceller: `src/api/cancel-subscription.js` -/

/-- What `await whopRes.json()` followed by reading `whopData.status` does: the
body does not parse (throws), it parses to `null` (reading `.status` throws), or
it parses to any other value. -/
inductive JsonBody where
  | unparsable
  | null
  | value
deriving DecidableEq

/-- What the provider call does: `fetch` throws, or it resolves to a response
that is not `ok` (whose body text may fail to be read), or to an `ok` response. -/
inductive WhopCancel where
  | threw
  | notOk (textReadable : Bool)
  | ok (body : JsonBody)
deriving DecidableEq

/-- The outcomes of the calls the Canceller awaits; the provider call is keyed
by the `whop_membership_id` in its URL. -/
structure CancelEnv where
  getUser : String → Option User
  lookupError : Bool
  whopCancel : String → WhopCancel
  updateError : Bool

namespace CancelSubscription

/-- The exported `handler` of `cancel-subscription.js`. -/
def handler (req : AuthRequest) (env : CancelEnv) (db : Store) : Outcome :=
  if req.method = "OPTIONS" then ⟨⟨200, .empty⟩, db, 0⟩
  else if req.method ≠ "POST" then ⟨⟨405, .error "Method not allowed"⟩, db, 0⟩
  else
    match bearerToken req.authorization with
    | none => ⟨⟨401, .error "Missing authorization token"⟩, db, 0⟩
    | some token =>
      match env.getUser token with
      | none => ⟨⟨401, .error "Invalid or expired token"⟩, db, 0⟩
      | some user =>
        let memberships := if env.lookupError then none else findLatestCancellable db user.id
        match memberships with
        | none => ⟨⟨404, .error "No active subscription found"⟩, db, 0⟩
        | some membership =>
          match env.whopCancel membership.whop_membership_id with
          | .threw => ⟨⟨500, .error "Internal server error"⟩, db, 0⟩
          | .notOk false => ⟨⟨500, .error "Internal server error"⟩, db, 0⟩
          | .notOk true =>
            ⟨⟨502, .error "Failed to cancel subscription with payment provider"⟩, db, 0⟩
          | .ok .unparsable => ⟨⟨500, .error "Internal server error"⟩, db, 0⟩
          | .ok .null => ⟨⟨500, .error "Internal server error"⟩, db, 0⟩
          | .ok .value =>
            ⟨⟨200, .cancelled "Subscription will cancel at the end of your billing period"
                membership.renewal_period_end⟩,
              if env.updateError then db else setCancellation db membership.id, 1⟩

end CancelSubscription

/-! ## Sequences of operations -/

/-- One invocation of one of the three handlers, with the outcomes of the calls
it awaits. -/
inductive Op where
  | ingest (req : WebhookRequest) (env : WebhookEnv)
  | read (req : AuthRequest) (env : ReaderEnv)
  | cancel (req : AuthRequest) (env : CancelEnv)

/-- The table after one invocation. -/
def step (toLowerCase : String → String) (db : Store) (op : Op) : Store :=
  match op with
  | .ingest req env => (WhopWebhook.handler toLowerCase req env db).db
  | .read req env => (Subscription.handler toLowerCase req env db).db
  | .cancel req env => (CancelSubscription.handler req env db).db

/-- The table after a sequence of invocations, in order. -/
def run (toLowerCase : String → String) (ops : List Op) (db : Store) : Store :=
  ops.foldl (step toLowerCase) db

/-! ## The data-model invariant on cancellation -/

/-- Every row with status `canceling` has `cancel_at_period_end` set. -/
def CancelingFlagged (db : Store) : Prop :=
  ∀ r ∈ db, r.status = "canceling" → r.cancel_at_period_end = true

/-- The operation is an Ingest whose verified event reports the status
`canceling` without `cancel_at_period_end = true`. -/
def Op.reportsUnflaggedCanceling : Op → Bool
  | .ingest req _ =>
    match req.verified with
    | some p =>
      decide ((p.data.getD {}).status = some "canceling" ∧
        (p.data.getD {}).cancel_at_period_end ≠ some true)
    | none => false
  | .read _ _ => false
  | .cancel _ _ => false

/-! ## Example data -/

/-- A linked, active membership `m1` of user `u1`. -/
def exRow : Membership :=
  { id := 1, whop_membership_id := "m1", whop_plan_id := "plan_VWsf3Cik0o7Vj",
    whop_user_email := "a@x.com", whop_user_id := none, user_id := some "u1",
    status := "active", plan_name := some "4-Week Plan", plan_price_cents := some 1999,
    plan_interval := some "month", renewal_period_start := none,
    renewal_period_end := some "2026-01-01", cancel_at_period_end := false,
    canceled_at := none, created_at := 10 }

/-- The membership `m1` as `exRow`, linked to another user `u0`. -/
def exOtherRow : Membership := { exRow with user_id := some "u0" }

/-- A verified `POST` delivering the membership payload `d`. -/
def exPost (d : WhopMembership) : WebhookRequest :=
  ⟨"POST", true, some { type := some "membership.updated", data := some d }⟩

/-- An event for `m1` with the account email `A@x.com`, status `active`, the
4-week plan and a renewal period. -/
def exEvent : Payload :=
  { type := some "membership.updated"
    data := some
      { id := some "m1", user := some { id := some "wu1", email := some "A@x.com" },
        plan := some { id := some "plan_VWsf3Cik0o7Vj" }, status := some "active",
        cancel_at_period_end := some false, renewal_period_start := some "2025-12-01",
        renewal_period_end := some "2026-01-01" } }

/-- The identity `u1`, whose email is `a@x.com`. -/
def exUser : User := ⟨"u1", some "a@x.com"⟩

/-- Token verification that knows the token `t1` of `exUser`. -/
def exGetUser : String → Option User := fun t => if t = "t1" then some exUser else none

/-- An authenticated request of `exUser`. -/
def exAuth (method : String) : AuthRequest := ⟨method, some "Bearer t1"⟩

/-- An event for `m1` whose account email is `A@X.com`. -/
def exUpperEvent : Payload :=
  { type := some "membership.activated"
    data := some
      { id := some "m1", user := some { id := some "wu1", email := some "A@X.com" },
        plan := some { id := some "plan_VWsf3Cik0o7Vj" }, status := some "active" } }

/-- Token verification that knows the token `t1` of a user `u2` whose email is
`A@X.com`. -/
def exGetUpperUser : String → Option User :=
  fun t => if t = "t1" then some ⟨"u2", some "A@X.com"⟩ else none

/-- An event for `m1` reporting the status `canceling` with
`cancel_at_period_end = false`. -/
def exCancelingEvent : Payload :=
  { type := some "membership.updated"
    data := some { id := some "m1", status := some "canceling",
                   cancel_at_period_end := some false } }

/-- A directory holding the single identity `u1` with email `a@x.com`, a store
that accepts writes, and the clock at 20. -/
def exEnv : WebhookEnv := ⟨.data (some [⟨"u1", some "a@x.com"⟩]), false, 20⟩

/-- The same, with the upsert reporting an error. -/
def exEnvDown : WebhookEnv := ⟨.data (some [⟨"u1", some "a@x.com"⟩]), true, 20⟩

/-- An Ingest of `exEvent`, then a cancellation and a read by `exUser`. -/
def exOps : List Op :=
  [ .ingest ⟨"POST", true, some exEvent⟩ exEnv,
    .cancel (exAuth "POST") ⟨exGetUser, false, fun _ => .ok .value, false⟩,
    .read (exAuth "GET") ⟨exGetUser, false, false, false⟩ ]

/-! ## Lemmas on the table operations -/

section StoreLemmas

theorem mergeRow_key (r : Membership) (v : UpsertValues) :
    (mergeRow r v).whop_membership_id = r.whop_membership_id := rfl

theorem mergeRow_id (r : Membership) (v : UpsertValues) : (mergeRow r v).id = r.id := rfl

theorem mergeRow_mergeRow (r : Membership) (v : UpsertValues) :
    mergeRow (mergeRow r v) v = mergeRow r v := by
  cases hn : v.plan_name <;> cases hp : v.plan_price_cents <;> cases hi : v.plan_interval <;>
    simp [mergeRow, hn, hp, hi]

theorem mergeRow_insertRow (v : UpsertValues) (i now : Nat) :
    mergeRow (insertRow v i now) v = insertRow v i now := by
  cases hn : v.plan_name <;> cases hp : v.plan_price_cents <;> cases hi : v.plan_interval <;>
    simp [mergeRow, insertRow, hn, hp, hi]

/-- The keys of the table after an upsert: unchanged on a conflict, else the
new key is appended. -/
theorem upsert_keys (db : Store) (v : UpsertValues) (now : Nat) :
    (upsert db v now).map (·.whop_membership_id) =
      if v.whop_membership_id ∈ db.map (·.whop_membership_id) then db.map (·.whop_membership_id)
      else db.map (·.whop_membership_id) ++ [v.whop_membership_id] := by
  unfold upsert
  by_cases h : v.whop_membership_id ∈ db.map (·.whop_membership_id)
  · have hany : db.any (fun r => decide (r.whop_membership_id = v.whop_membership_id)) = true := by
      obtain ⟨r, hr, hk⟩ := List.mem_map.mp h
      exact List.any_eq_true.mpr ⟨r, hr, by simpa using hk⟩
    rw [if_pos hany, if_pos h, List.map_map]
    apply List.map_congr_left
    intro r _
    by_cases hk : r.whop_membership_id = v.whop_membership_id <;> simp [hk, mergeRow_key]
  · have hany : ¬ db.any (fun r => decide (r.whop_membership_id = v.whop_membership_id)) = true := by
      intro hc
      obtain ⟨r, hr, hk⟩ := List.any_eq_true.mp hc
      exact h (List.mem_map.mpr ⟨r, hr, by simpa using hk⟩)
    rw [if_neg hany, if_neg h]
    simp [insertRow]

/-- After an upsert every row under the upserted key is either a merged old
row or the inserted row. -/
theorem mem_upsert_key {db : Store} {v : UpsertValues} {now : Nat} {r : Membership}
    (hr : r ∈ upsert db v now) (hk : r.whop_membership_id = v.whop_membership_id) :
    (∃ r0 ∈ db, r = mergeRow r0 v) ∨ r = insertRow v (freshId db) now := by
  unfold upsert at hr
  split at hr
  · obtain ⟨r0, hr0, rfl⟩ := List.mem_map.mp hr
    by_cases hk0 : r0.whop_membership_id = v.whop_membership_id
    · rw [if_pos hk0]
      exact Or.inl ⟨r0, hr0, rfl⟩
    · rw [if_neg hk0] at hk
      exact absurd hk hk0
  · rcases List.mem_append.mp hr with h | h
    · rename_i hany
      exact absurd (List.any_eq_true.mpr ⟨r, h, by simpa using hk⟩) hany
    · exact Or.inr (by simpa using h)

/-- After an upsert every other row is a row of the table before. -/
theorem mem_upsert_other {db : Store} {v : UpsertValues} {now : Nat} {r : Membership}
    (hr : r ∈ upsert db v now) (hk : r.whop_membership_id ≠ v.whop_membership_id) :
    r ∈ db := by
  unfold upsert at hr
  split at hr
  · obtain ⟨r0, hr0, rfl⟩ := List.mem_map.mp hr
    by_cases hk0 : r0.whop_membership_id = v.whop_membership_id
    · rw [if_pos hk0] at hk
      exact absurd hk0 hk
    · rw [if_neg hk0]
      exact hr0
  · rcases List.mem_append.mp hr with h | h
    · exact h
    · have : r = insertRow v (freshId db) now := by simpa using h
      exact absurd (by rw [this]; rfl) hk

theorem upsert_conflict {db : Store} {v : UpsertValues} (now : Nat)
    (h : db.any (fun r => decide (r.whop_membership_id = v.whop_membership_id)) = true) :
    upsert db v now =
      db.map (fun r => if r.whop_membership_id = v.whop_membership_id then mergeRow r v else r) := by
  unfold upsert
  rw [if_pos h]

/-- Replaying an upsert changes nothing, whatever the clock. -/
theorem upsert_upsert (db : Store) (v : UpsertValues) (now now2 : Nat) :
    upsert (upsert db v now) v now2 = upsert db v now := by
  have hmem : v.whop_membership_id ∈ (upsert db v now).map (·.whop_membership_id) := by
    rw [upsert_keys]; split <;> simp_all
  have hany : (upsert db v now).any
      (fun r => decide (r.whop_membership_id = v.whop_membership_id)) = true := by
    obtain ⟨r, hr, hk⟩ := List.mem_map.mp hmem
    exact List.any_eq_true.mpr ⟨r, hr, by simpa using hk⟩
  rw [upsert_conflict now2 hany]
  conv_rhs => rw [← List.map_id (upsert db v now)]
  apply List.map_congr_left
  intro r hr
  by_cases hk : r.whop_membership_id = v.whop_membership_id
  · simp only [hk, if_true, id]
    rcases mem_upsert_key hr hk with ⟨r0, _, rfl⟩ | rfl
    · exact mergeRow_mergeRow r0 v
    · exact mergeRow_insertRow v _ _
  · simp [hk]

/-- With unique keys before, exactly one row carries the upserted key after. -/
theorem upsert_unique (db : Store) (v : UpsertValues) (now : Nat)
    (huniq : (db.map (·.whop_membership_id)).Nodup) :
    ((upsert db v now).filter (fun r => r.whop_membership_id = v.whop_membership_id)).length
      = 1 := by
  have hcount : ∀ l : Store,
      (l.filter (fun r => decide (r.whop_membership_id = v.whop_membership_id))).length
        = (l.map (·.whop_membership_id)).count v.whop_membership_id := by
    intro l
    induction l with
    | nil => rfl
    | cons a t ih =>
      by_cases h : a.whop_membership_id = v.whop_membership_id
      · simp [List.filter_cons, h, ih]
      · simp [List.filter_cons, h, ih, List.count_cons]
  rw [hcount, upsert_keys]
  split
  · rename_i h
    exact List.count_eq_one_of_mem huniq h
  · rename_i h
    rw [List.count_append, List.count_eq_zero_of_not_mem h]
    simp

end StoreLemmas

/-! ## Ingest -/

section Ingest

open WhopWebhook

/-- A verified `POST` whose payload carries a membership id, with the upsert
accepted, answers 200 and leaves the upserted table. -/
theorem handler_accepts (toLowerCase : String → String) (payload : Payload) (env : WebhookEnv)
    (db : Store) (m : String)
    (hid : truthy (payload.data.getD {}).id = some m) (hok : env.upsertError = false) :
    handler toLowerCase ⟨"POST", true, some payload⟩ env db =
      ⟨⟨200, .success⟩,
        upsert db (upsertValues toLowerCase (payload.data.getD {}) m env.listUsers) env.now,
        1⟩ := by
  simp [handler, hid, hok]

/-- Step 5 resolves to null when no listed user has an email that lower-cases
to the lower-cased event email. -/
theorem userId_no_match (toLowerCase : String → String) (users : List User) (email : String)
    (hno : ∀ u ∈ users, ∀ e, u.email = some e → toLowerCase e ≠ toLowerCase email) :
    userId toLowerCase (.data (some users)) email = none := by
  have hf : users.find?
      (fun u => decide (u.email.map toLowerCase = some (toLowerCase email))) = none := by
    rw [List.find?_eq_none]
    intro u huin
    cases hue : u.email with
    | none => simp
    | some e => simpa using hno u huin e hue
  simp only [userId, hf, Option.map_none', ite_self]

/-- Step 5 resolves to the first listed user whose email lower-cases to the
lower-cased event email, when that email is not empty. -/
theorem userId_first_match (toLowerCase : String → String) (pre : List User) (u : User)
    (post : List User) (email e : String) (hne : email ≠ "")
    (hpre : ∀ v ∈ pre, ∀ e2, v.email = some e2 → toLowerCase e2 ≠ toLowerCase email)
    (hue : u.email = some e) (hmatch : toLowerCase e = toLowerCase email) :
    userId toLowerCase (.data (some (pre ++ u :: post))) email = some u.id := by
  have hp : pre.find?
      (fun u => decide (u.email.map toLowerCase = some (toLowerCase email))) = none := by
    rw [List.find?_eq_none]
    intro v hv
    cases hve : v.email with
    | none => simp
    | some e2 => simpa using hpre v hv e2 hve
  have hf : (pre ++ u :: post).find?
      (fun u => decide (u.email.map toLowerCase = some (toLowerCase email))) = some u := by
    rw [List.find?_append, hp]
    simp [hue, hmatch]
  simp only [userId, hf, if_neg hne, Option.map_some']

/-- C1, as stated, fails: the membership `m1` is linked to `u1`; an event for
`m1` whose email matches no identity leaves it with `user_id = null`. -/
theorem C1_link_overwritten :
    [exRow].map (fun r => (r.whop_membership_id, r.user_id)) = [("m1", some "u1")] ∧
    (handler toLowerCaseAscii (exPost { id := some "m1", email := some "other@x.com" }) exEnv
      [exRow]).db.map
      (fun r => (r.whop_membership_id, r.user_id)) = [("m1", none)] := by
  decide

/-- C1, amended: after an accepted Ingest of a valid event for `m`, a record for
`m` exists, and whatever `user_id` it had before, every record for `m` has
`user_id` null when the event has no email, when `listUsers` throws or returns
no users, and when no listed user has an email equal to the event's email after
both are lower-cased, and has the id of the first listed user with such an email
otherwise. The event's email is `user.email`, else `email`, else `''`. -/
theorem C1_ingest_writes_resolved_link (toLowerCase : String → String) (payload : Payload)
    (env : WebhookEnv) (db : Store) (m : String)
    (hid : truthy (payload.data.getD {}).id = some m) (hok : env.upsertError = false) :
    (∃ r ∈ (handler toLowerCase ⟨"POST", true, some payload⟩ env db).db,
      r.whop_membership_id = m) ∧
    ∀ r ∈ (handler toLowerCase ⟨"POST", true, some payload⟩ env db).db,
      r.whop_membership_id = m →
      ∀ email : String,
        email =
          (match (payload.data.getD {}).user.bind (·.email), (payload.data.getD {}).email with
            | some e, some e2 => if e = "" then e2 else e
            | some e, none => e
            | none, some e2 => e2
            | none, none => "") →
        (email = "" → r.user_id = none) ∧
        (env.listUsers = .threw → r.user_id = none) ∧
        (env.listUsers = .data none → r.user_id = none) ∧
        (∀ users, env.listUsers = .data (some users) →
          (∀ u ∈ users, ∀ e, u.email = some e → toLowerCase e ≠ toLowerCase email) →
          r.user_id = none) ∧
        (∀ pre u post e, env.listUsers = .data (some (pre ++ u :: post)) → email ≠ "" →
          (∀ v ∈ pre, ∀ e2, v.email = some e2 → toLowerCase e2 ≠ toLowerCase email) →
          u.email = some e → toLowerCase e = toLowerCase email →
          r.user_id = some u.id) := by
  rw [handler_accepts toLowerCase payload env db m hid hok]
  constructor
  · have h : m ∈ (upsert db (upsertValues toLowerCase (payload.data.getD {}) m env.listUsers)
        env.now).map (·.whop_membership_id) := by
      rw [upsert_keys]
      split
      · rename_i h; exact h
      · exact List.mem_append_right _ (List.mem_singleton.mpr rfl)
    obtain ⟨r, hr, hk⟩ := List.mem_map.mp h
    exact ⟨r, hr, hk⟩
  · intro r hr hk email hemail
    have hu : r.user_id = userId toLowerCase env.listUsers (whopEmail (payload.data.getD {})) := by
      rcases mem_upsert_key hr hk with ⟨r0, _, rfl⟩ | rfl <;> rfl
    have hwe : whopEmail (payload.data.getD {}) = email := by
      rw [hemail]
      unfold whopEmail truthy
      cases h1 : (payload.data.getD {}).user.bind (·.email) with
      | none =>
        cases h2 : (payload.data.getD {}).email with
        | none => simp
        | some e2 => by_cases h0 : e2 = "" <;> simp [h0]
      | some e =>
        cases h2 : (payload.data.getD {}).email with
        | none => by_cases h0 : e = "" <;> simp [h0]
        | some e2 => by_cases h0 : e = "" <;> by_cases h3 : e2 = "" <;> simp [h0, h3]
    rw [hu, hwe]
    refine ⟨?_, ?_, ?_, ?_, ?_⟩
    · intro h0
      simp [userId, h0]
    · intro ht
      simp [userId, ht]
    · intro ht
      simp [userId, ht]
    · intro users hus hno
      rw [hus]
      exact userId_no_match toLowerCase users email hno
    · intro pre u post e hus hne hpre hue hmatch
      rw [hus]
      exact userId_first_match toLowerCase pre u post email e hne hpre hue hmatch

/-- C1, amended, at `exEvent` (email `A@x.com`) ingested over `exOtherRow`, which
is linked to `u0`: the directory lists `u1` with the email `a@x.com`, and the
record for `m1` ends up linked to `u1`. -/
theorem C1_ingest_writes_resolved_link_witness :
    exOtherRow.user_id = some "u0" ∧
    ((handler toLowerCaseAscii ⟨"POST", true, some exEvent⟩ exEnv [exOtherRow]).db.headD
      exRow).user_id = some "u1" :=
  ⟨by decide,
    (C1_ingest_writes_resolved_link toLowerCaseAscii exEvent exEnv [exOtherRow] "m1"
      (by decide) (by decide)).2
      ((handler toLowerCaseAscii ⟨"POST", true, some exEvent⟩ exEnv [exOtherRow]).db.headD
        exRow)
      (by decide) (by decide) "A@x.com" (by decide) |>.2.2.2.2
      [] ⟨"u1", some "a@x.com"⟩ [] "a@x.com" (by decide) (by decide)
      (fun _ hv => absurd hv (List.not_mem_nil _)) (by decide) (by decide)⟩

/-- C2, as stated, fails: when the store rejects the upsert (the handler answers
500 both times), ingesting a valid event for `m1` twice into the empty table
leaves no record for `m1`. -/
theorem C2_no_record_when_upsert_fails :
    (handler toLowerCaseAscii (exPost { id := some "m1" }) exEnvDown
      (handler toLowerCaseAscii (exPost { id := some "m1" }) exEnvDown []).db).response.status
        = 500 ∧
    ((handler toLowerCaseAscii (exPost { id := some "m1" }) exEnvDown
      (handler toLowerCaseAscii (exPost { id := some "m1" }) exEnvDown []).db).db.filter
        (fun r => r.whop_membership_id = "m1")).length = 0 := by
  decide

/-- C2, amended: for a table with unique provider membership ids, a directory
and a valid event for `m` whose upserts the store accepts, ingesting the event a
second time (at any later clock) leaves the table as the first ingestion left
it; that table has exactly one record for `m`, whose provider-owned columns hold
the values derived from the event, a plan attribute being constrained wherever
the plan lookup yields one. -/
theorem C2_ingest_idempotent (toLowerCase : String → String) (payload : Payload)
    (env env2 : WebhookEnv) (db : Store)
    (m : String) (hid : truthy (payload.data.getD {}).id = some m)
    (hok : env.upsertError = false) (hok2 : env2.upsertError = false)
    (hdir : env2.listUsers = env.listUsers)
    (huniq : (db.map (·.whop_membership_id)).Nodup) :
    (handler toLowerCase ⟨"POST", true, some payload⟩ env2
        (handler toLowerCase ⟨"POST", true, some payload⟩ env db).db).db
      = (handler toLowerCase ⟨"POST", true, some payload⟩ env db).db ∧
    ((handler toLowerCase ⟨"POST", true, some payload⟩ env db).db.filter
      (fun r => r.whop_membership_id = m)).length = 1 ∧
    ∀ r ∈ (handler toLowerCase ⟨"POST", true, some payload⟩ env db).db, r.whop_membership_id = m →
      r.whop_plan_id = whopPlanId (payload.data.getD {}) ∧
      r.whop_user_email = whopEmail (payload.data.getD {}) ∧
      r.whop_user_id = truthy ((payload.data.getD {}).user.bind (·.id)) ∧
      r.status = status (payload.data.getD {}) ∧
      (∀ x, (planDetails (whopPlanId (payload.data.getD {}))).name = some x →
        r.plan_name = some x) ∧
      (∀ x, (planDetails (whopPlanId (payload.data.getD {}))).price_cents = some x →
        r.plan_price_cents = some x) ∧
      (∀ x, (planDetails (whopPlanId (payload.data.getD {}))).interval = some x →
        r.plan_interval = some x) ∧
      r.renewal_period_start = truthy (payload.data.getD {}).renewal_period_start ∧
      r.renewal_period_end = truthy (payload.data.getD {}).renewal_period_end ∧
      r.cancel_at_period_end = decide ((payload.data.getD {}).cancel_at_period_end = some true) ∧
      r.canceled_at = truthy (payload.data.getD {}).canceled_at := by
  rw [handler_accepts toLowerCase payload env db m hid hok,
    handler_accepts toLowerCase payload env2 _ m hid hok2, hdir]
  refine ⟨upsert_upsert _ _ _ _,
    upsert_unique db (upsertValues toLowerCase (payload.data.getD {}) m env.listUsers) env.now
      huniq, ?_⟩
  intro r hr hk
  rcases mem_upsert_key hr hk with ⟨r0, _, rfl⟩ | rfl
  · refine ⟨rfl, rfl, rfl, rfl, ?_, ?_, ?_, rfl, rfl, rfl, rfl⟩ <;>
      · intro x hx
        simp [mergeRow, upsertValues, hx]
  · refine ⟨rfl, rfl, rfl, rfl, ?_, ?_, ?_, rfl, rfl, rfl, rfl⟩ <;>
      · intro x hx
        simp [insertRow, upsertValues, hx]

/-- C2, amended, at `exEvent` ingested twice over `exRow`. -/
theorem C2_ingest_idempotent_witness :
    (handler toLowerCaseAscii ⟨"POST", true, some exEvent⟩ exEnv
        (handler toLowerCaseAscii ⟨"POST", true, some exEvent⟩ exEnv [exRow]).db).db
      = (handler toLowerCaseAscii ⟨"POST", true, some exEvent⟩ exEnv [exRow]).db ∧
    ((handler toLowerCaseAscii ⟨"POST", true, some exEvent⟩ exEnv [exRow]).db.filter
      (fun r => r.whop_membership_id = "m1")).length = 1 :=
  have h := C2_ingest_idempotent toLowerCaseAscii exEvent exEnv exEnv [exRow] "m1" (by decide)
    (by decide)
    (by decide) rfl (by decide)
  ⟨h.1, h.2.1⟩

/-- C3, as stated, fails: an event reporting the status `''` (not `'active'`)
with `cancel_at_period_end = false` is stored with status `'active'`. -/
theorem C3_empty_status_defaults :
    (handler toLowerCaseAscii
      (exPost { id := some "m1", status := some "", cancel_at_period_end := some false })
      exEnv []).db.map (fun r => (r.whop_membership_id, r.status)) = [("m1", "active")] := by
  decide

/-- C3, amended: the stored status is the event's reported status when it is
present and non-empty and `'active'` otherwise, except that it is `'canceling'`
when the event flags `cancel_at_period_end = true` and that status is `'active'`. -/
theorem C3_status_derivation (toLowerCase : String → String) (payload : Payload)
    (env : WebhookEnv) (db : Store) (m : String)
    (hid : truthy (payload.data.getD {}).id = some m) (hok : env.upsertError = false) :
    ∀ r ∈ (handler toLowerCase ⟨"POST", true, some payload⟩ env db).db, r.whop_membership_id = m →
      r.status =
        if (payload.data.getD {}).cancel_at_period_end = some true ∧
            (match (payload.data.getD {}).status with
              | some s => if s = "" then "active" else s
              | none => "active") = "active"
        then "canceling"
        else
          (match (payload.data.getD {}).status with
            | some s => if s = "" then "active" else s
            | none => "active") := by
  rw [handler_accepts toLowerCase payload env db m hid hok]
  intro r hr hk
  have hs : r.status = status (payload.data.getD {}) := by
    rcases mem_upsert_key hr hk with ⟨r0, _, rfl⟩ | rfl <;> rfl
  rw [hs]
  unfold status truthy
  cases h : (payload.data.getD {}).status with
  | none => simp
  | some s => by_cases hs0 : s = "" <;> simp [hs0]

/-- C3, amended, at the row that ingesting `exEvent` over `exRow` leaves. -/
theorem C3_status_derivation_witness :
    ((handler toLowerCaseAscii ⟨"POST", true, some exEvent⟩ exEnv [exRow]).db.headD exRow).status =
      if (exEvent.data.getD {}).cancel_at_period_end = some true ∧
          (match (exEvent.data.getD {}).status with
            | some s => if s = "" then "active" else s
            | none => "active") = "active"
      then "canceling"
      else
        (match (exEvent.data.getD {}).status with
          | some s => if s = "" then "active" else s
          | none => "active") :=
  C3_status_derivation toLowerCaseAscii exEvent exEnv [exRow] "m1" (by decide) (by decide)
    ((handler toLowerCaseAscii ⟨"POST", true, some exEvent⟩ exEnv [exRow]).db.headD exRow)
    (by decide) (by decide)

/-- C8, at the failing input: an event whose plan id is `'constructor'`, which is
not a key of the plan catalog, is stored with plan name `'Object'` and no price
or interval, not with the `'Unknown Plan'` entry. -/
theorem C8_inherited_key_not_unknown :
    PLAN_MAP.lookup "constructor" = none ∧
    (handler toLowerCaseAscii (exPost { id := some "m1", plan_id := some "constructor" }) exEnv
      []).db.map
      (fun r => (r.plan_name, r.plan_price_cents, r.plan_interval))
        = [(some "Object", none, none)] := by
  decide

/-- Outside the names inherited from `Object.prototype`, a plan id that is not
a catalog key resolves to the `'Unknown Plan'` entry. -/
theorem planDetails_unknown (planId : String) (hown : PLAN_MAP.lookup planId = none)
    (hproto : objectPrototype.lookup planId = none) :
    planDetails planId = ⟨some "Unknown Plan", some 0, some "unknown"⟩ := by
  simp [planDetails, planMapGet, hown, hproto, unknownPlan]

/-- The three catalog keys resolve to their entries. -/
theorem planDetails_catalog :
    planDetails "plan_VWsf3Cik0o7Vj" = ⟨some "4-Week Plan", some 1999, some "month"⟩ ∧
    planDetails "plan_CGt8PI0ipZ9vR" = ⟨some "12-Week Plan", some 3999, some "3-months"⟩ ∧
    planDetails "plan_KJiJ7FZ8lj9OR" = ⟨some "24-Week Plan", some 5999, some "6-months"⟩ := by
  decide

end Ingest

/-! ## Canceller -/

section Canceller

open CancelSubscription

theorem latest_mem {rows : List Membership} {m : Membership} (h : latest rows = some m) :
    m ∈ rows :=
  List.argmax_mem h

theorem latest_le {rows : List Membership} {m r : Membership} (h : latest rows = some m)
    (hr : r ∈ rows) : r.created_at ≤ m.created_at :=
  List.le_of_mem_argmax hr h

theorem latest_isSome {rows : List Membership} {r : Membership} (hr : r ∈ rows) :
    ∃ m, latest rows = some m := by
  cases h : latest rows with
  | some m => exact ⟨m, rfl⟩
  | none =>
    have : rows = [] := List.argmax_eq_none.mp h
    simp [this] at hr

/-- An authenticated `POST` whose lookup succeeds and selects `mem` continues
with the provider call for `mem`. -/
theorem handler_selects (req : AuthRequest) (env : CancelEnv) (db : Store) (token : String)
    (user : User) (mem : Membership) (hm : req.method = "POST")
    (ht : bearerToken req.authorization = some token) (hu : env.getUser token = some user)
    (hl : env.lookupError = false) (hmem : findLatestCancellable db user.id = some mem) :
    handler req env db =
      match env.whopCancel mem.whop_membership_id with
      | .threw => ⟨⟨500, .error "Internal server error"⟩, db, 0⟩
      | .notOk false => ⟨⟨500, .error "Internal server error"⟩, db, 0⟩
      | .notOk true =>
        ⟨⟨502, .error "Failed to cancel subscription with payment provider"⟩, db, 0⟩
      | .ok .unparsable => ⟨⟨500, .error "Internal server error"⟩, db, 0⟩
      | .ok .null => ⟨⟨500, .error "Internal server error"⟩, db, 0⟩
      | .ok .value =>
        ⟨⟨200, .cancelled "Subscription will cancel at the end of your billing period"
            mem.renewal_period_end⟩,
          if env.updateError then db else setCancellation db mem.id, 1⟩ := by
  simp [handler, hm, ht, hu, hl, hmem]

/-- C4: for an authenticated user with an active or trialing membership, when
the provider call for the selected membership throws or is answered with a
non-ok response, the handler answers with an error (502, or 500 on a throw), the
table is exactly the table before and no write was sent to it. -/
theorem C4_cancel_atomic (req : AuthRequest) (env : CancelEnv) (db : Store) (token : String)
    (user : User) (hm : req.method = "POST")
    (ht : bearerToken req.authorization = some token) (hu : env.getUser token = some user)
    (hl : env.lookupError = false)
    (hel : ∃ r ∈ db, r.user_id = some user.id ∧ (r.status = "active" ∨ r.status = "trialing"))
    (hfail : ∀ mem, findLatestCancellable db user.id = some mem →
      env.whopCancel mem.whop_membership_id = .threw ∨
        ∃ b, env.whopCancel mem.whop_membership_id = .notOk b) :
    ((handler req env db).response =
        ⟨502, .error "Failed to cancel subscription with payment provider"⟩ ∨
      (handler req env db).response = ⟨500, .error "Internal server error"⟩) ∧
    (handler req env db).db = db ∧ (handler req env db).writes = 0 := by
  obtain ⟨r, hr, hru, hrs⟩ := hel
  have hin : r ∈ db.filter (fun r =>
      decide (r.user_id = some user.id ∧ (r.status = "active" ∨ r.status = "trialing"))) := by
    simp [List.mem_filter, hr, hru, hrs]
  obtain ⟨mem, hmem⟩ := latest_isSome hin
  rw [handler_selects req env db token user mem hm ht hu hl hmem]
  rcases hfail mem hmem with h | ⟨b, h⟩
  · simp [h]
  · cases b <;> simp [h]

/-- C4 at `exUser` cancelling `exRow` with the provider answering a non-ok response. -/
theorem C4_cancel_atomic_witness :
    ((handler (exAuth "POST") ⟨exGetUser, false, fun _ => .notOk true, false⟩ [exRow]).response =
        ⟨502, .error "Failed to cancel subscription with payment provider"⟩ ∨
      (handler (exAuth "POST") ⟨exGetUser, false, fun _ => .notOk true, false⟩ [exRow]).response
        = ⟨500, .error "Internal server error"⟩) ∧
    (handler (exAuth "POST") ⟨exGetUser, false, fun _ => .notOk true, false⟩ [exRow]).db
      = [exRow] ∧
    (handler (exAuth "POST") ⟨exGetUser, false, fun _ => .notOk true, false⟩ [exRow]).writes
      = 0 :=
  C4_cancel_atomic (exAuth "POST") ⟨exGetUser, false, fun _ => .notOk true, false⟩ [exRow] "t1"
    exUser (by decide) (by decide) (by decide) (by decide)
    ⟨exRow, by decide, by decide, by decide⟩ (fun _ _ => Or.inr ⟨true, rfl⟩)

/-- C10, at the failing input: the Canceller's membership lookup reports a
storage error for a user who has an active membership, and the handler answers
404 `No active subscription found`; with the lookup succeeding it answers 200. -/
theorem C10_cancel_lookup_error_as_not_found :
    (handler (exAuth "POST") ⟨exGetUser, true, fun _ => .ok .value, false⟩ [exRow]).response
      = ⟨404, .error "No active subscription found"⟩ ∧
    (handler (exAuth "POST") ⟨exGetUser, false, fun _ => .ok .value, false⟩ [exRow]).response.status
      = 200 := by
  decide

/-- The Reader answers 500 `Database error` when its lookup by user id reports
a storage error. -/
theorem reader_surfaces_lookup_error (toLowerCase : String → String) (req : AuthRequest)
    (env : ReaderEnv) (db : Store)
    (token : String) (user : User) (hm : req.method = "GET")
    (ht : bearerToken req.authorization = some token) (hu : env.getUser token = some user)
    (he : env.dbError = true) :
    Subscription.handler toLowerCase req env db = ⟨⟨500, .error "Database error"⟩, db, 0⟩ := by
  simp [Subscription.handler, hm, ht, hu, he]

/-- Ingest answers 500 `Database error` when its upsert reports a storage error. -/
theorem ingest_surfaces_upsert_error (toLowerCase : String → String) (payload : Payload)
    (env : WebhookEnv) (db : Store)
    (m : String) (hid : truthy (payload.data.getD {}).id = some m)
    (he : env.upsertError = true) :
    WhopWebhook.handler toLowerCase ⟨"POST", true, some payload⟩ env db
      = ⟨⟨500, .error "Database error"⟩, db, 1⟩ := by
  simp [WhopWebhook.handler, hid, he]

/-- C7, as stated, fails: the provider answers the cancellation of `m1` with an
ok response whose body does not parse; the handler answers 500 and the table
is unchanged. -/
theorem C7_ok_response_unparsable_body :
    (handler (exAuth "POST") ⟨exGetUser, false, fun _ => .ok .unparsable, false⟩ [exRow])
      = ⟨⟨500, .error "Internal server error"⟩, [exRow], 0⟩ := by
  decide

/-- C7, amended: with primary-key ids, when the lookup selects `mem` and the
provider answers its cancellation with an ok response whose body parses to a
non-null value, `mem` is the most recently created membership of the user with
status `active` or `trialing`, the handler answers 200 with the original
`renewal_period_end` of `mem` (also when the local write fails, which leaves the
table as it was), and when the local write succeeds the table afterwards is the
table before with `mem` alone replaced by `mem` with `cancel_at_period_end = true`
and `status = 'canceling'`. -/
theorem C7_cancel_success (req : AuthRequest) (env : CancelEnv) (db : Store) (token : String)
    (user : User) (mem : Membership) (hm : req.method = "POST")
    (ht : bearerToken req.authorization = some token) (hu : env.getUser token = some user)
    (hl : env.lookupError = false) (hids : (db.map (·.id)).Nodup)
    (hmem : findLatestCancellable db user.id = some mem)
    (hok : env.whopCancel mem.whop_membership_id = .ok .value) :
    (mem ∈ db ∧ mem.user_id = some user.id ∧ (mem.status = "active" ∨ mem.status = "trialing") ∧
      ∀ r ∈ db, r.user_id = some user.id → (r.status = "active" ∨ r.status = "trialing") →
        r.created_at ≤ mem.created_at) ∧
    (handler req env db).response =
      ⟨200, .cancelled "Subscription will cancel at the end of your billing period"
        mem.renewal_period_end⟩ ∧
    (env.updateError = true → (handler req env db).db = db) ∧
    (env.updateError = false → (handler req env db).db =
      db.map (fun r =>
        if r = mem then { mem with cancel_at_period_end := true, status := "canceling" }
        else r)) := by
  have hin := latest_mem hmem
  have hmem_db : mem ∈ db := (List.mem_filter.mp hin).1
  have hprop := (List.mem_filter.mp hin).2
  simp only [decide_eq_true_eq] at hprop
  rw [handler_selects req env db token user mem hm ht hu hl hmem, hok]
  refine ⟨⟨hmem_db, hprop.1, hprop.2, ?_⟩, rfl, ?_, ?_⟩
  · intro r hr hru hrs
    apply latest_le hmem
    simp [List.mem_filter, hr, hru, hrs]
  · intro he
    simp [he]
  · intro he
    simp only [he, Bool.false_eq_true, if_false]
    unfold setCancellation
    apply List.map_congr_left
    intro r hr
    by_cases hid : r.id = mem.id
    · have : r = mem := List.inj_on_of_nodup_map hids hr hmem_db hid
      simp [this]
    · have : r ≠ mem := fun h => hid (by rw [h])
      simp [hid, this]

/-- C7, amended, at `exUser` cancelling `exRow` with every call succeeding. -/
theorem C7_cancel_success_witness :
    (handler (exAuth "POST") ⟨exGetUser, false, fun _ => .ok .value, false⟩ [exRow]).response =
      ⟨200, .cancelled "Subscription will cancel at the end of your billing period"
        exRow.renewal_period_end⟩ ∧
    (handler (exAuth "POST") ⟨exGetUser, false, fun _ => .ok .value, false⟩ [exRow]).db =
      [exRow].map (fun r =>
        if r = exRow then { exRow with cancel_at_period_end := true, status := "canceling" }
        else r) :=
  have h := C7_cancel_success (exAuth "POST") ⟨exGetUser, false, fun _ => .ok .value, false⟩
    [exRow] "t1" exUser exRow (by decide) (by decide) (by decide) (by decide) (by decide)
    (by decide) rfl
  ⟨h.2.1, h.2.2.2 rfl⟩

end Canceller

/-! ## Reader -/

section Reader

open Subscription

/-- The Reader's outcome depends on `toLowerCase` only through its value at the
authenticated user's email. -/
theorem handler_congr (f g : String → String) (req : AuthRequest) (env : ReaderEnv)
    (db : Store)
    (h : ∀ t u e, bearerToken req.authorization = some t → env.getUser t = some u →
      truthy u.email = some e → f e = g e) :
    handler f req env db = handler g req env db := by
  cases ht : bearerToken req.authorization with
  | none => simp [handler, ht]
  | some t =>
    cases hu : env.getUser t with
    | none => simp [handler, ht, hu]
    | some u =>
      cases he : truthy u.email with
      | none => simp [handler, ht, hu, he]
      | some e => simp [handler, ht, hu, he, h t u e ht hu he]

/-- C5, at the failing input, for every `toLowerCase` that maps `A@X.com` and
`a@x.com` to `a@x.com`: the event's account email is `A@X.com`, no identity
exists at ingest time and the table is empty; the user `u1`, whose email
`a@x.com` equals it ignoring case, then calls the Reader, which answers
`subscription: null` and leaves the record unlinked. -/
theorem C5_uppercase_event_email_not_linked (toLowerCase : String → String)
    (hupper : toLowerCase "A@X.com" = "a@x.com") (hlower : toLowerCase "a@x.com" = "a@x.com") :
    toLowerCase "A@X.com" = toLowerCase "a@x.com" ∧
    (WhopWebhook.handler toLowerCase ⟨"POST", true, some exUpperEvent⟩
      ⟨.data (some []), false, 20⟩ []).db.map
      (fun r => (r.whop_membership_id, r.whop_user_email, r.user_id))
        = [("m1", "A@X.com", none)] ∧
    (handler toLowerCase (exAuth "GET") ⟨exGetUser, false, false, false⟩
      (WhopWebhook.handler toLowerCase ⟨"POST", true, some exUpperEvent⟩
        ⟨.data (some []), false, 20⟩ []).db).response = ⟨200, .subscription none⟩ ∧
    (handler toLowerCase (exAuth "GET") ⟨exGetUser, false, false, false⟩
      (WhopWebhook.handler toLowerCase ⟨"POST", true, some exUpperEvent⟩
        ⟨.data (some []), false, 20⟩ []).db).db.map (·.user_id) = [none] := by
  have hi : WhopWebhook.handler toLowerCase ⟨"POST", true, some exUpperEvent⟩
      ⟨.data (some []), false, 20⟩ [] =
      WhopWebhook.handler toLowerCaseAscii ⟨"POST", true, some exUpperEvent⟩
        ⟨.data (some []), false, 20⟩ [] := rfl
  have hr : ∀ db, handler toLowerCase (exAuth "GET") ⟨exGetUser, false, false, false⟩ db =
      handler toLowerCaseAscii (exAuth "GET") ⟨exGetUser, false, false, false⟩ db := by
    intro db
    apply handler_congr
    intro t u e ht hu he
    have hb : bearerToken (exAuth "GET").authorization = some "t1" := by decide
    rw [hb] at ht
    cases ht
    have hg : exGetUser "t1" = some exUser := by decide
    rw [show (⟨exGetUser, false, false, false⟩ : ReaderEnv).getUser "t1" = exGetUser "t1" from rfl,
      hg] at hu
    cases hu
    have hm : truthy exUser.email = some "a@x.com" := by decide
    rw [hm] at he
    cases he
    rw [hlower]
    decide
  rw [hi, hr, hupper, hlower]
  decide

/-- C5 at the failing input, with the ASCII lower-casing. -/
theorem C5_uppercase_event_email_not_linked_witness :
    toLowerCaseAscii "A@X.com" = toLowerCaseAscii "a@x.com" ∧
    (WhopWebhook.handler toLowerCaseAscii ⟨"POST", true, some exUpperEvent⟩
      ⟨.data (some []), false, 20⟩ []).db.map
      (fun r => (r.whop_membership_id, r.whop_user_email, r.user_id))
        = [("m1", "A@X.com", none)] ∧
    (handler toLowerCaseAscii (exAuth "GET") ⟨exGetUser, false, false, false⟩
      (WhopWebhook.handler toLowerCaseAscii ⟨"POST", true, some exUpperEvent⟩
        ⟨.data (some []), false, 20⟩ []).db).response = ⟨200, .subscription none⟩ ∧
    (handler toLowerCaseAscii (exAuth "GET") ⟨exGetUser, false, false, false⟩
      (WhopWebhook.handler toLowerCaseAscii ⟨"POST", true, some exUpperEvent⟩
        ⟨.data (some []), false, 20⟩ []).db).db.map (·.user_id) = [none] :=
  C5_uppercase_event_email_not_linked toLowerCaseAscii (by decide) (by decide)

/-- C6, at the failing input, for every `toLowerCase` that maps `A@X.com` to
`a@x.com`: Ingest of an event with the account email `A@X.com` into the empty
table leaves one unlinked record with that email; the user `u2`, whose email is
`A@X.com` letter for letter, has no linked record and writes succeed; two Reader
calls both answer `subscription: null` and no record is linked to the user. -/
theorem C6_uppercase_email_not_found (toLowerCase : String → String)
    (hupper : toLowerCase "A@X.com" = "a@x.com") :
    exGetUpperUser "t1" = some ⟨"u2", some "A@X.com"⟩ ∧
    (WhopWebhook.handler toLowerCase ⟨"POST", true, some exUpperEvent⟩
      ⟨.data (some []), false, 20⟩ []).db.map
      (fun r => (r.whop_user_email, r.user_id)) = [("A@X.com", none)] ∧
    (handler toLowerCase (exAuth "GET") ⟨exGetUpperUser, false, false, false⟩
      (WhopWebhook.handler toLowerCase ⟨"POST", true, some exUpperEvent⟩
        ⟨.data (some []), false, 20⟩ []).db).response = ⟨200, .subscription none⟩ ∧
    (handler toLowerCase (exAuth "GET") ⟨exGetUpperUser, false, false, false⟩
      (handler toLowerCase (exAuth "GET") ⟨exGetUpperUser, false, false, false⟩
        (WhopWebhook.handler toLowerCase ⟨"POST", true, some exUpperEvent⟩
          ⟨.data (some []), false, 20⟩ []).db).db).response = ⟨200, .subscription none⟩ ∧
    ((handler toLowerCase (exAuth "GET") ⟨exGetUpperUser, false, false, false⟩
      (handler toLowerCase (exAuth "GET") ⟨exGetUpperUser, false, false, false⟩
        (WhopWebhook.handler toLowerCase ⟨"POST", true, some exUpperEvent⟩
          ⟨.data (some []), false, 20⟩ []).db).db).db.filter
        (fun r => r.user_id = some "u2")).length = 0 := by
  have hi : WhopWebhook.handler toLowerCase ⟨"POST", true, some exUpperEvent⟩
      ⟨.data (some []), false, 20⟩ [] =
      WhopWebhook.handler toLowerCaseAscii ⟨"POST", true, some exUpperEvent⟩
        ⟨.data (some []), false, 20⟩ [] := rfl
  have hr : ∀ db, handler toLowerCase (exAuth "GET") ⟨exGetUpperUser, false, false, false⟩ db =
      handler toLowerCaseAscii (exAuth "GET") ⟨exGetUpperUser, false, false, false⟩ db := by
    intro db
    apply handler_congr
    intro t u e ht hu he
    have hb : bearerToken (exAuth "GET").authorization = some "t1" := by decide
    rw [hb] at ht
    cases ht
    have hg : exGetUpperUser "t1" = some ⟨"u2", some "A@X.com"⟩ := by decide
    rw [show (⟨exGetUpperUser, false, false, false⟩ : ReaderEnv).getUser "t1"
      = exGetUpperUser "t1" from rfl, hg] at hu
    cases hu
    have hm : truthy (⟨"u2", some "A@X.com"⟩ : User).email = some "A@X.com" := by decide
    rw [hm] at he
    cases he
    rw [hupper]
    decide
  rw [hi]
  simp only [hr]
  decide

/-- C6 at the failing input, with the ASCII lower-casing. -/
theorem C6_uppercase_email_not_found_witness :
    ((handler toLowerCaseAscii (exAuth "GET") ⟨exGetUpperUser, false, false, false⟩
      (handler toLowerCaseAscii (exAuth "GET") ⟨exGetUpperUser, false, false, false⟩
        (WhopWebhook.handler toLowerCaseAscii ⟨"POST", true, some exUpperEvent⟩
          ⟨.data (some []), false, 20⟩ []).db).db).response = ⟨200, .subscription none⟩) ∧
    ((handler toLowerCaseAscii (exAuth "GET") ⟨exGetUpperUser, false, false, false⟩
      (handler toLowerCaseAscii (exAuth "GET") ⟨exGetUpperUser, false, false, false⟩
        (WhopWebhook.handler toLowerCaseAscii ⟨"POST", true, some exUpperEvent⟩
          ⟨.data (some []), false, 20⟩ []).db).db).db.filter
        (fun r => r.user_id = some "u2")).length = 0 :=
  have h := C6_uppercase_email_not_found toLowerCaseAscii (by decide)
  ⟨h.2.2.2.1, h.2.2.2.2⟩

theorem linkUser_filter_nil (t : Store) (i : Nat) (u : String) (h1 : ∀ r ∈ t, r.id ≠ i)
    (h2 : ∀ r ∈ t, r.user_id ≠ some u) :
    (linkUser t i u).filter (fun r => r.user_id = some u) = [] := by
  rw [List.filter_eq_nil_iff]
  intro r hr
  obtain ⟨r0, hr0, rfl⟩ := List.mem_map.mp hr
  simp [h1 r0 hr0, h2 r0 hr0]

/-- With primary-key ids, linking the row `m` of a table without a row of user
`u` leaves exactly the linked `m` under `u`. -/
theorem linkUser_filter (db : Store) (m : Membership) (u : String)
    (hids : (db.map (·.id)).Nodup) (hm : m ∈ db) (hnone : ∀ r ∈ db, r.user_id ≠ some u) :
    (linkUser db m.id u).filter (fun r => r.user_id = some u)
      = [{ m with user_id := some u }] := by
  induction db with
  | nil => simp at hm
  | cons a t ih =>
    have hnd : a.id ∉ t.map (·.id) ∧ (t.map (·.id)).Nodup := List.nodup_cons.mp hids
    have hta : ∀ r ∈ t, r.user_id ≠ some u := fun r hr => hnone r (List.mem_cons_of_mem _ hr)
    by_cases hid : a.id = m.id
    · have ham : a = m := List.inj_on_of_nodup_map hids (List.mem_cons_self _ _) hm hid
      subst ham
      have h1 : ∀ r ∈ t, r.id ≠ a.id := fun r hr h =>
        hnd.1 (List.mem_map.mpr ⟨r, hr, h⟩)
      have := linkUser_filter_nil t a.id u h1 hta
      simp [linkUser] at this ⊢
      exact this
    · have hmt : m ∈ t := by
        rcases List.mem_cons.mp hm with h | h
        · exact absurd (by rw [h]) hid
        · exact h
      have := ih hnd.2 hmt hta
      have ha : a.user_id ≠ some u := hnone a (List.mem_cons_self _ _)
      simp [linkUser, hid, ha] at this ⊢
      exact this

/-- On a table with primary-key ids, for a user with a non-empty email, no
linked membership and exactly one unlinked record whose stored email equals the
user's email lower-cased, with the table requests succeeding, the first Reader
call answers that record with `user_id` set to the user's id, the second call
answers the same record, sends no write and leaves the table as the first call
left it, and exactly that one record is linked to the user. -/
theorem reader_links_once (toLowerCase : String → String) (req : AuthRequest)
    (env env2 : ReaderEnv) (db : Store) (token : String) (user : User) (email : String)
    (m : Membership)
    (hm : req.method = "GET") (ht : bearerToken req.authorization = some token)
    (hu : env.getUser token = some user) (hu2 : env2.getUser token = some user)
    (he : truthy user.email = some email)
    (hdb : env.dbError = false) (hel : env.emailLookupError = false)
    (hlk : env.linkError = false) (hdb2 : env2.dbError = false)
    (hids : (db.map (·.id)).Nodup)
    (hnone : ∀ r ∈ db, r.user_id ≠ some user.id)
    (hmem : m ∈ db) (hmu : m.user_id = none) (hme : m.whop_user_email = toLowerCase email)
    (honly : ∀ r ∈ db, r.user_id = none → r.whop_user_email = toLowerCase email → r = m) :
    (handler toLowerCase req env db).response
      = ⟨200, .subscription (some { m with user_id := some user.id })⟩ ∧
    (handler toLowerCase req env2 (handler toLowerCase req env db).db).response
      = (handler toLowerCase req env db).response ∧
    (handler toLowerCase req env2 (handler toLowerCase req env db).db).writes = 0 ∧
    (handler toLowerCase req env2 (handler toLowerCase req env db).db).db
      = (handler toLowerCase req env db).db ∧
    (handler toLowerCase req env db).db.filter (fun r => r.user_id = some user.id)
      = [{ m with user_id := some user.id }] := by
  have hne : req.method ≠ "OPTIONS" := by rw [hm]; decide
  have hfirst : findLatestByUser db user.id = none := by
    unfold findLatestByUser latest
    rw [List.argmax_eq_none, List.filter_eq_nil_iff]
    intro r hr
    simpa using hnone r hr
  have hsecond : findLatestUnlinkedByEmail db (toLowerCase email) = some m := by
    have hin : m ∈ db.filter (fun r =>
        decide (r.whop_user_email = toLowerCase email ∧ r.user_id = none)) := by
      simp [List.mem_filter, hmem, hmu, hme]
    obtain ⟨x, hx⟩ := latest_isSome hin
    have hxin := List.mem_filter.mp (latest_mem hx)
    have hxp := hxin.2
    simp only [decide_eq_true_eq] at hxp
    unfold findLatestUnlinkedByEmail
    rw [hx, honly x hxin.1 hxp.2 hxp.1]
  have h1 : handler toLowerCase req env db =
      ⟨⟨200, .subscription (some { m with user_id := some user.id })⟩,
        linkUser db m.id user.id, 1⟩ := by
    simp [handler, hm, ht, hu, he, hdb, hel, hlk, hfirst, hsecond]
  have hlinked := linkUser_filter db m user.id hids hmem hnone
  have hthird : findLatestByUser (linkUser db m.id user.id) user.id
      = some { m with user_id := some user.id } := by
    unfold findLatestByUser latest
    rw [hlinked]
    exact List.argmax_singleton
  have h2 : handler toLowerCase req env2 (linkUser db m.id user.id) =
      ⟨⟨200, .subscription (some { m with user_id := some user.id })⟩,
        linkUser db m.id user.id, 0⟩ := by
    simp [handler, hm, ht, hu2, hdb2, hthird]
  rw [h1, h2]
  exact ⟨rfl, rfl, rfl, rfl, hlinked⟩

end Reader

/-! ## The cancellation invariant over sequences of operations -/

section Invariant

theorem upsert_flagged (db : Store) (v : UpsertValues) (now : Nat) (h : CancelingFlagged db)
    (hv : v.status = "canceling" → v.cancel_at_period_end = true) :
    CancelingFlagged (upsert db v now) := by
  intro r hr hs
  by_cases hk : r.whop_membership_id = v.whop_membership_id
  · rcases mem_upsert_key hr hk with ⟨r0, _, rfl⟩ | rfl <;> exact hv hs
  · exact h r (mem_upsert_other hr hk) hs

theorem linkUser_flagged (db : Store) (i : Nat) (u : String) (h : CancelingFlagged db) :
    CancelingFlagged (linkUser db i u) := by
  intro r hr hs
  obtain ⟨r0, hr0, rfl⟩ := List.mem_map.mp hr
  by_cases hi : r0.id = i
  · rw [if_pos hi] at hs ⊢
    exact h r0 hr0 hs
  · rw [if_neg hi] at hs ⊢
    exact h r0 hr0 hs

theorem setCancellation_flagged (db : Store) (i : Nat) (h : CancelingFlagged db) :
    CancelingFlagged (setCancellation db i) := by
  intro r hr hs
  obtain ⟨r0, hr0, rfl⟩ := List.mem_map.mp hr
  by_cases hi : r0.id = i
  · rw [if_pos hi]
  · rw [if_neg hi] at hs ⊢
    exact h r0 hr0 hs

/-- The values Ingest derives carry the status `canceling` only with the flag
set, unless the event itself reports `canceling` without the flag. -/
theorem upsertValues_flagged (toLowerCase : String → String) (membership : WhopMembership)
    (m : String) (l : ListUsersResult)
    (h : ¬ (membership.status = some "canceling" ∧ membership.cancel_at_period_end ≠ some true)) :
    (WhopWebhook.upsertValues toLowerCase membership m l).status = "canceling" →
      (WhopWebhook.upsertValues toLowerCase membership m l).cancel_at_period_end = true := by
  intro hs
  simp only [WhopWebhook.upsertValues, WhopWebhook.status] at hs ⊢
  by_cases hf : membership.cancel_at_period_end = some true
  · simp [hf]
  · simp only [hf, false_and, if_false] at hs
    exfalso
    apply h
    refine ⟨?_, hf⟩
    cases hst : membership.status with
    | none => simp [hst, truthy] at hs
    | some s =>
      by_cases hs0 : s = ""
      · simp [hst, truthy, hs0] at hs
      · simp [hst, truthy, hs0] at hs
        rw [hs]

theorem ingest_flagged (toLowerCase : String → String) (req : WebhookRequest)
    (env : WebhookEnv) (db : Store)
    (h : CancelingFlagged db) (hreq : (Op.ingest req env).reportsUnflaggedCanceling = false) :
    CancelingFlagged (WhopWebhook.handler toLowerCase req env db).db := by
  dsimp only [WhopWebhook.handler]
  repeat' split
  all_goals first
    | exact h
    | (apply upsert_flagged _ _ _ h
       apply upsertValues_flagged
       simp_all [Op.reportsUnflaggedCanceling])

theorem reader_flagged (toLowerCase : String → String) (req : AuthRequest) (env : ReaderEnv)
    (db : Store) (h : CancelingFlagged db) :
    CancelingFlagged (Subscription.handler toLowerCase req env db).db := by
  dsimp only [Subscription.handler]
  repeat' split
  all_goals first
    | exact h
    | exact linkUser_flagged _ _ _ h

theorem cancel_flagged (req : AuthRequest) (env : CancelEnv) (db : Store)
    (h : CancelingFlagged db) : CancelingFlagged (CancelSubscription.handler req env db).db := by
  dsimp only [CancelSubscription.handler]
  repeat' split
  all_goals first
    | exact h
    | exact setCancellation_flagged _ _ h

theorem run_flagged (toLowerCase : String → String) (ops : List Op) (db : Store)
    (h : CancelingFlagged db)
    (hops : ∀ op ∈ ops, op.reportsUnflaggedCanceling = false) :
    CancelingFlagged (run toLowerCase ops db) := by
  induction ops generalizing db with
  | nil => exact h
  | cons op t ih =>
    have hop := hops op (List.mem_cons_self _ _)
    have ht : ∀ o ∈ t, o.reportsUnflaggedCanceling = false :=
      fun o ho => hops o (List.mem_cons_of_mem _ ho)
    have hstep : CancelingFlagged (step toLowerCase db op) := by
      cases op with
      | ingest req env => exact ingest_flagged toLowerCase req env db h hop
      | read req env => exact reader_flagged toLowerCase req env db h
      | cancel req env => exact cancel_flagged req env db h
    exact ih (step toLowerCase db op) hstep ht

/-- C9, as stated, fails: ingesting into the empty table an event that reports
the status `canceling` with `cancel_at_period_end = false` leaves a record with
status `canceling` and `cancel_at_period_end = false`. -/
theorem C9_canceling_without_flag :
    (run toLowerCaseAscii [.ingest ⟨"POST", true, some exCancelingEvent⟩ exEnv] []).map
      (fun r => (r.status, r.cancel_at_period_end)) = [("canceling", false)] := by
  decide

/-- C9, amended: in every table reached from the empty table by a sequence of
Ingest, Reader and Canceller invocations in which no ingested event reports the
status `canceling` without `cancel_at_period_end = true`, every record with
status `canceling` has `cancel_at_period_end = true`. -/
theorem C9_canceling_flagged (toLowerCase : String → String) (ops : List Op)
    (hops : ∀ op ∈ ops, op.reportsUnflaggedCanceling = false) :
    ∀ r ∈ run toLowerCase ops [], r.status = "canceling" → r.cancel_at_period_end = true :=
  run_flagged toLowerCase ops [] (fun _ hr => absurd hr (List.not_mem_nil _)) hops

/-- C9, amended, at the row that the operations `exOps` leave. -/
theorem C9_canceling_flagged_witness :
    ((run toLowerCaseAscii exOps []).headD exRow).status = "canceling" ∧
    ((run toLowerCaseAscii exOps []).headD exRow).cancel_at_period_end = true :=
  ⟨by decide,
    C9_canceling_flagged toLowerCaseAscii exOps (by
      intro op hop
      simp only [exOps, List.mem_cons, List.mem_singleton, List.not_mem_nil, or_false] at hop
      rcases hop with rfl | rfl | rfl <;> rfl)
      ((run toLowerCaseAscii exOps []).headD exRow) (by decide) (by decide)⟩

end Invariant

end Slimbloom
